import Mathlib

/-!
A shallow embedding of the Spectrum inventory plugin
(nornir_spectrum/plugins/inventory/spectrum.py), centred on the record
translation routine that converts parsed device attribute records into
host and group collections, together with proofs of the behavioural
properties stated for it.

Python dictionaries are modelled as association lists in insertion
order; lookup, removal (pop) and insertion mirror the CPython
semantics.  Absent keys, null values and empty strings are
distinguished exactly as in the source.  The local variable
connection_options, which the source reads before any assignment on
certain paths, is modelled as an Option that starts out none (unbound);
reading it while unbound yields the UnboundLocalError the interpreter
raises.  Group objects carry a creation index so that object identity
is observable in the model.
-/

namespace Spectrum

/-- Value of one XML attribute: attr.text, which may be null (None). -/
abbrev Val := Option String

/-- A parsed device record: an insertion-ordered mapping from attribute
code to attribute text, as built by the load routine. -/
abbrev Device := List (String × Val)

/-- Dictionary lookup (d.get(k)): value at the first binding of the key. -/
def dictGet {κ α : Type} [DecidableEq κ] : List (κ × α) → κ → Option α
  | [], _ => none
  | p :: m, k => if p.1 = k then some p.2 else dictGet m k

/-- Dictionary removal, the mutation performed by d.pop(k); a no-op when
the key is absent. -/
def dictErase {κ α : Type} [DecidableEq κ] : List (κ × α) → κ → List (κ × α)
  | [], _ => []
  | p :: m, k => if p.1 = k then dictErase m k else p :: dictErase m k

/-- Dictionary insertion (d[k] = v): overwrites an existing binding in
place, appends a new key at the end, as CPython dicts do. -/
def dictSet {κ α : Type} [DecidableEq κ] : List (κ × α) → κ → α → List (κ × α)
  | [], k, v => [(k, v)]
  | p :: m, k, v => if p.1 = k then (k, v) :: dictSet m k v else p :: dictSet m k v

/-- Python truthiness of an attribute value: None and the empty string
are falsy, every other string is truthy. -/
def pyTruthy : Val → Bool
  | none => false
  | some s => s != ""

/-- Dictionary get with a possibly-null key, as in MAP.get(x) where x
may be None: None is never a key of the fixed tables. -/
def mapGetOpt {α : Type} (m : List (String × α)) : Option String → Option α
  | none => none
  | some k => dictGet m k

/-- SPECTRUM_PORT_MAP from the source: communication-mode code to port. -/
def SPECTRUM_PORT_MAP : List (String × Nat) := [("32", 22), ("7", 22), ("3", 23)]

/-- NETMIKO_MODEL_TYPE_MAP from the source. -/
def NETMIKO_MODEL_TYPE_MAP : List (String × String) :=
  [("Rtr_Cisco", "ios"), ("SwCiscoIOS", "ios"), ("CiscoNXOS", "nxos_ssh"),
   ("SwCat45xx", "ios"), ("HubCat29xx", "ios"), ("CiscoASA", "cisco_asa")]

/-- NETMIKO_DEVICE_TYPE_MAP from the source. -/
def NETMIKO_DEVICE_TYPE_MAP : List (String × String) :=
  [("CiscoRT", "ios"), ("JuniperRT", "junos")]

/-- Whether the character list hay starts with the character list pre. -/
def startsWithL : List Char → List Char → Bool
  | _, [] => true
  | [], _ :: _ => false
  | a :: as, b :: bs => a == b && startsWithL as bs

/-- Whether needle occurs as a contiguous run inside hay. -/
def containsSubL (needle : List Char) : List Char → Bool
  | [] => needle == []
  | c :: rest => startsWithL (c :: rest) needle || containsSubL needle rest

/-- re.search with a literal word pattern is substring containment. -/
def containsSub (hay needle : String) : Bool :=
  containsSubL needle.toList hay.toList

/-- platform_calc from the source.  Both arguments come from dict.get and
may be absent or null, which collapse to none here. -/
def platform_calc (model_type_name device_type : Option String) : Option String :=
  let platform :=
    match mapGetOpt NETMIKO_MODEL_TYPE_MAP model_type_name with
    | some p => some p
    | none => mapGetOpt NETMIKO_DEVICE_TYPE_MAP device_type
  if !(pyTruthy platform) && pyTruthy device_type then
    if containsSub (device_type.getD "") "Cisco" then some "ios"
    else if containsSub (device_type.getD "") "Juniper" then some "junos"
    else platform
  else platform

/-- Runtime errors the translation loop can raise. -/
inductive PyErr where
  | keyError (k : String)
  | unboundLocal (v : String)
  | typeError (k : String)
  | valueError (s : String)
deriving DecidableEq, Repr

/-- Values stored in the data payload of a host: strings, null, or the
integers produced by int() conversion. -/
inductive DVal where
  | vstr (s : String)
  | vnone
  | vint (n : Int)
deriving DecidableEq, Repr

/-- Embeds an attribute value into a data payload value. -/
def valToD : Val → DVal
  | some s => .vstr s
  | none => .vnone

/-- str.split on a single colon, as a structural recursion over the
character list. -/
def splitColonAux : List Char → List Char → List String
  | [], acc => [String.mk acc.reverse]
  | c :: rest, acc =>
    if c = ':' then String.mk acc.reverse :: splitColonAux rest []
    else splitColonAux rest (c :: acc)

/-- str.split(colon): the empty string yields one empty token, as in
Python. -/
def splitColon (s : String) : List String := splitColonAux s.toList []

/-- ASCII whitespace, the characters str.strip and int() ignore.  (The
further unicode whitespace Python also strips is not modelled; no input
in this development uses it.) -/
def isSpaceChar (c : Char) : Bool :=
  c == ' ' || c == '\t' || c == '\n' || c == '\r' || c == '\x0b' || c == '\x0c'

/-- Drops leading whitespace from a character list. -/
def dropLeadingWs : List Char → List Char
  | [] => []
  | c :: r => if isSpaceChar c then dropLeadingWs r else c :: r

/-- str.strip over a character list. -/
def pyStrip (l : List Char) : List Char :=
  ((dropLeadingWs l).reverse |> dropLeadingWs).reverse

/-- Numeric value of a list of decimal digits. -/
def digitsVal (l : List Char) : Int :=
  l.foldl (fun n c => n * 10 + ((c.toNat - 48 : Nat) : Int)) 0

/-- int() on a string: optional surrounding whitespace, an optional
sign, then decimal digits; anything else raises ValueError (none here).
Digit-group underscores are not modelled; no input in this development
uses them. -/
def pyInt (s : String) : Option Int :=
  let l := pyStrip s.toList
  let p : Bool × List Char :=
    match l with
    | '-' :: r => (true, r)
    | '+' :: r => (false, r)
    | r => (false, r)
  if p.2.isEmpty || !(p.2.all Char.isDigit) then none
  else if p.1 then some (-(digitsVal p.2)) else some (digitsVal p.2)

/-- A Group, as created by Group(gc): its name, plus a creation index
that stands for Python object identity. -/
structure Group where
  name : String
  uid : Nat
deriving DecidableEq, Repr

/-- An extras value inside ConnectionOptions: the source only ever
stores a string or a flat string dictionary there. -/
inductive EVal where
  | s (v : String)
  | d (kvs : List (String × String))
deriving DecidableEq, Repr

/-- ConnectionOptions(extras=...), restricted to the shapes the source
constructs. -/
structure ConnectionOptions where
  extras : List (String × EVal)
deriving DecidableEq, Repr

/-- The netmiko entry installed for telnet-only Cisco devices. -/
def netmikoTelnet : ConnectionOptions := ⟨[("device_type", .s "cisco_ios_telnet")]⟩

/-- The napalm entry installed for telnet-only Cisco devices. -/
def napalmTelnet : ConnectionOptions := ⟨[("optional_args", .d [("transport", "telnet")])]⟩

/-- A Host as constructed at the end of the loop body. -/
structure Host where
  name : DVal
  hostname : DVal
  port : Nat
  platform : Option String
  groups : List Group
  connection_options : List (String × ConnectionOptions)
  data : List (String × DVal)
deriving DecidableEq, Repr

/-- The mutable state of the translation loop: the hosts and groups
dictionaries being built, the counter backing Group identity, and the
binding state of the local variable connection_options (none while the
variable is still unbound). -/
structure PState where
  hosts : List (DVal × Host)
  groups : List (String × Group)
  nextUid : Nat
  connOpts : Option (List (String × ConnectionOptions))
deriving DecidableEq, Repr

/-- State at entry of the loop: empty Hosts(), empty Groups(), and the
connection_options local not yet bound. -/
def initState : PState := ⟨[], [], 0, none⟩

/-- groups.setdefault(gc, Group(gc)): create the group unless present. -/
def addGroup (st : PState) (gc : String) : PState :=
  if (dictGet st.groups gc).isSome then st
  else { st with groups := st.groups ++ [(gc, ⟨gc, st.nextUid⟩)],
                 nextUid := st.nextUid + 1 }

/-- The setdefault loop over the candidate group names. -/
def addGroups (st : PState) (l : List String) : PState :=
  l.foldl addGroup st

/-- Candidate group names: split the collection string on a colon and
deduplicate, empty when the value is falsy.  Python materialises the
set in an unspecified order; the theorems below rely only on the
membership and uniqueness of the resulting list. -/
def gcTokens (v : Val) : List String :=
  if pyTruthy v then (splitColon (v.getD "")).dedup else []

/-- The telnet-only Cisco branch: update the connection_options local
(UnboundLocalError when it has never been assigned), otherwise rebind it
to an empty dictionary. -/
def connOptsStep (saved : Option (List (String × ConnectionOptions)))
    (port : Nat) (platform : Option String) :
    Except PyErr (List (String × ConnectionOptions)) :=
  if port == 23 && platform == some "ios" then
    match saved with
    | none => .error (.unboundLocal "connection_options")
    | some c => .ok (dictSet (dictSet c "netmiko" netmikoTelnet) "napalm" napalmTelnet)
  else .ok []

/-- device.pop(k, "") landing in the data payload; the erase is a no-op
when the key is absent. -/
def popStrD (device : Device) (k : String) : DVal × Device :=
  (match dictGet device k with
   | some v => valToD v
   | none => .vstr "", dictErase device k)

/-- int(device.pop(k, 0)): 0 when absent, TypeError on a null value,
ValueError on a non-numeric string. -/
def popIntD (device : Device) (k : String) : Except PyErr (Int × Device) :=
  match dictGet device k with
  | none => .ok (0, dictErase device k)
  | some none => .error (.typeError k)
  | some (some s) =>
    match pyInt s with
    | none => .error (.valueError s)
    | some n => .ok (n, dictErase device k)

/-- Builds the renamed data payload: the five named fields popped from
the device record, then data.update(device) over what remains. -/
def buildData (device : Device) : Except PyErr (List (String × DVal) × Device) :=
  let (mt, device) := popStrD device "0x10000"
  match popIntD device "0x1000a" with
  | .error e => .error e
  | .ok (cond, device) =>
    match popIntD device "0x11ee8" with
    | .error e => .error e
    | .ok (mclass, device) =>
      let (dt, device) := popStrD device "0x23000e"
      let (topo, device) := popStrD device "0x129e7"
      let base : List (String × DVal) :=
        [("model_type", mt), ("condition", .vint cond), ("model_class", .vint mclass),
         ("device_type", dt), ("topology_string", topo)]
      let data := device.foldl (fun acc p => dictSet acc p.1 (valToD p.2)) base
      .ok (data, device)

/-- The list comprehension groups[gc] for gc in gc_list: dictionary
lookups that raise KeyError on a missing name. -/
def groupRefs (st : PState) : List String → Except PyErr (List Group)
  | [] => .ok []
  | gc :: rest =>
    match dictGet st.groups gc with
    | none => .error (.keyError gc)
    | some g =>
      match groupRefs st rest with
      | .error e => .error e
      | .ok l => .ok (g :: l)

/-- The platform the loop derives before the fallbacks, from the two
dict.get calls on the device record. -/
def devPlatform (device : Device) : Option String :=
  platform_calc ((dictGet device "0x10000").join) ((dictGet device "0x23000e").join)

/-- The generic fallbacks: port 22 with a falsy platform becomes
generic, port 23 with a falsy platform becomes generic_telnet. -/
def finalPlatform (port : Nat) (platform : Option String) : Option String :=
  if port == 22 && !(pyTruthy platform) then some "generic"
  else if port == 23 && !(pyTruthy platform) then some "generic_telnet"
  else platform

/-- NETCONF for all Juniper devices: platform junos forces port 830. -/
def finalPort (port : Nat) (platform : Option String) : Nat :=
  if platform == some "junos" then 830 else port

/-- The tail of the loop body once a supported port is known: platform
calculation, the telnet-only Cisco branch, the generic fallbacks, the
NETCONF port override, the data payload, and the Host construction.
Returns the new state, the mutated device record, and the emitted host. -/
def emitHost (st : PState) (gcList : List String) (port : Nat) (device : Device) :
    Except PyErr (PState × Device × Option Host) :=
  match connOptsStep st.connOpts port (devPlatform device) with
  | .error e => .error e
  | .ok co =>
    let platform := finalPlatform port (devPlatform device)
    let port := finalPort port platform
    match buildData device with
    | .error e => .error e
    | .ok (data, device) =>
      match dictGet data "0x1006e" with
      | none => .error (.keyError "0x1006e")
      | some hostname =>
        let data := dictErase data "0x1006e"
        match dictGet data "0x12d7f" with
        | none => .error (.keyError "0x12d7f")
        | some netaddr =>
          let data := dictErase data "0x12d7f"
          match groupRefs st gcList with
          | .error e => .error e
          | .ok refs =>
            let h : Host :=
              { name := hostname, hostname := netaddr, port := port,
                platform := platform, groups := refs,
                connection_options := co, data := data }
            .ok ({ st with hosts := dictSet st.hosts hostname h, connOpts := some co },
                 device, some h)

/-- The loop body after the group-creation step: pop the
communication-mode code, skip the record when it maps to no port,
otherwise emit a host. -/
def afterGroups (st : PState) (gcList : List String) (device : Device) :
    Except PyErr (PState × Device × Option Host) :=
  match dictGet device "0x12beb" with
  | none => .error (.keyError "0x12beb")
  | some modeV =>
    let device := dictErase device "0x12beb"
    match mapGetOpt SPECTRUM_PORT_MAP modeV with
    | none => .ok (st, device, none)
    | some port => emitHost st gcList port device

/-- One iteration of the loop in process data: pop the collection
string, create the groups, then run the rest of the body. -/
def processDevice (st : PState) (device : Device) :
    Except PyErr (PState × Device × Option Host) :=
  match dictGet device "0x12adb" with
  | none => .error (.keyError "0x12adb")
  | some gcStr =>
    let device := dictErase device "0x12adb"
    let gcList := gcTokens gcStr
    afterGroups (addGroups st gcList) gcList device

/-- The loop over all device records, also returning the post-mutation
input records. -/
def processAll (st : PState) : List Device → Except PyErr (PState × List Device)
  | [] => .ok (st, [])
  | d :: ds =>
    match processDevice st d with
    | .error e => .error e
    | .ok (st', d', _) =>
      match processAll st' ds with
      | .error e => .error e
      | .ok (st'', ds') => .ok (st'', d' :: ds')

/-- The process data routine: runs the loop from the empty state and
returns the hosts dictionary, the groups dictionary, and the input
records as the loop left them. -/
def processData (hostsData : List Device) :
    Except PyErr (List (DVal × Host) × List (String × Group) × List Device) :=
  match processAll initState hostsData with
  | .error e => .error e
  | .ok (st, ds) => .ok (st.hosts, st.groups, ds)

/-! ### Dictionary lemmas -/

theorem dictGet_dictErase {κ α : Type} [DecidableEq κ] (m : List (κ × α)) (k k' : κ) :
    dictGet (dictErase m k') k = if k = k' then none else dictGet m k := by
  induction m with
  | nil => simp [dictGet, dictErase]
  | cons p m ih =>
    by_cases hp : p.1 = k'
    · by_cases hk : k = k'
      · subst hk
        simp [dictErase, hp, ih]
      · have hk2 : ¬ (k' = k) := fun h => hk h.symm
        simp [dictErase, dictGet, hp, hk, hk2, ih]
    · by_cases hpk : p.1 = k
      · have hk : ¬ (k = k') := fun h => hp (hpk.trans h)
        simp [dictErase, dictGet, hp, hpk, hk]
      · simp [dictErase, dictGet, hp, hpk, ih]

theorem dictGet_dictErase_ne {κ α : Type} [DecidableEq κ] (m : List (κ × α)) {k k' : κ}
    (h : k ≠ k') : dictGet (dictErase m k') k = dictGet m k := by
  rw [dictGet_dictErase]; simp [h]

theorem dictGet_dictSet {κ α : Type} [DecidableEq κ] (m : List (κ × α)) (k k' : κ) (v : α) :
    dictGet (dictSet m k' v) k = if k' = k then some v else dictGet m k := by
  induction m with
  | nil => simp [dictSet, dictGet]
  | cons p m ih =>
    by_cases hp : p.1 = k'
    · by_cases hk : k' = k
      · subst hk
        simp [dictSet, dictGet, hp]
      · have hk2 : ¬ (k = k') := fun h => hk h.symm
        simp [dictSet, dictGet, hp, hk, hk2, ih]
    · by_cases hpk : p.1 = k
      · have hk : ¬ (k' = k) := fun h => hp (hpk.trans h.symm)
        have hk2 : ¬ (k = k') := fun h => hk h.symm
        simp [dictSet, dictGet, hp, hpk, hk, hk2]
      · simp [dictSet, dictGet, hp, hpk, ih]

theorem dictGet_eq_none {κ α : Type} [DecidableEq κ] {m : List (κ × α)} {k : κ}
    (h : dictGet m k = none) : ∀ p ∈ m, p.1 ≠ k := by
  induction m with
  | nil => intro p hp; cases hp
  | cons q m ih =>
    intro p hp
    by_cases hq : q.1 = k
    · rw [dictGet, if_pos hq] at h; cases h
    · rw [dictGet, if_neg hq] at h
      rw [List.mem_cons] at hp
      rcases hp with hp | hp
      · rw [hp]; exact hq
      · exact ih h p hp

theorem dictGet_mem {κ α : Type} [DecidableEq κ] {m : List (κ × α)} {k : κ} {a : α}
    (h : dictGet m k = some a) : (k, a) ∈ m := by
  induction m with
  | nil => cases h
  | cons p m ih =>
    obtain ⟨p1, p2⟩ := p
    by_cases hp : p1 = k
    · rw [dictGet, if_pos hp] at h
      cases h
      subst hp
      exact List.mem_cons_self _ _
    · rw [dictGet, if_neg hp] at h
      exact List.mem_cons_of_mem _ (ih h)

theorem mem_dictSet {κ α : Type} [DecidableEq κ] {m : List (κ × α)} {k : κ} {v : α}
    {x : κ × α} (h : x ∈ dictSet m k v) : x = (k, v) ∨ x ∈ m := by
  induction m with
  | nil =>
    rw [dictSet, List.mem_singleton] at h
    exact Or.inl h
  | cons p m ih =>
    by_cases hp : p.1 = k
    · rw [dictSet, if_pos hp, List.mem_cons] at h
      rcases h with h | h
      · exact Or.inl h
      · rcases ih h with h | h
        · exact Or.inl h
        · exact Or.inr (List.mem_cons_of_mem _ h)
    · rw [dictSet, if_neg hp, List.mem_cons] at h
      rcases h with h | h
      · exact Or.inr (by rw [h]; exact List.mem_cons_self _ _)
      · rcases ih h with h | h
        · exact Or.inl h
        · exact Or.inr (List.mem_cons_of_mem _ h)

theorem nodupKeys_mem_eq {κ α : Type} [DecidableEq κ] {m : List (κ × α)}
    (hnd : (m.map Prod.fst).Nodup) {k : κ} {a b : α}
    (ha : (k, a) ∈ m) (hb : (k, b) ∈ m) : a = b := by
  induction m with
  | nil => cases ha
  | cons p m ih =>
    rw [List.map_cons, List.nodup_cons] at hnd
    rw [List.mem_cons] at ha hb
    rcases ha with ha | ha <;> rcases hb with hb | hb
    · subst ha
      injection hb with h1 h2
      exact h2.symm
    · exfalso
      apply hnd.1
      rw [← ha]
      show k ∈ m.map Prod.fst
      exact List.mem_map_of_mem Prod.fst hb
    · exfalso
      apply hnd.1
      rw [← hb]
      show k ∈ m.map Prod.fst
      exact List.mem_map_of_mem Prod.fst ha
    · exact ih hnd.2 ha hb

/-! ### Inversion lemmas for the translation loop -/

theorem processDevice_ok_inv {st : PState} {d : Device} {st' : PState} {d' : Device}
    {ho : Option Host} (H : processDevice st d = .ok (st', d', ho)) :
    ∃ gcStr, dictGet d "0x12adb" = some gcStr ∧
      afterGroups (addGroups st (gcTokens gcStr)) (gcTokens gcStr) (dictErase d "0x12adb") =
        .ok (st', d', ho) := by
  rw [processDevice] at H
  cases hg : dictGet d "0x12adb" with
  | none => rw [hg] at H; cases H
  | some gcStr =>
    rw [hg] at H
    simp only at H
    exact ⟨gcStr, rfl, H⟩

theorem afterGroups_ok_inv {st : PState} {gcl : List String} {dev : Device} {st' : PState}
    {d' : Device} {ho : Option Host} (H : afterGroups st gcl dev = .ok (st', d', ho)) :
    ∃ modeV, dictGet dev "0x12beb" = some modeV ∧
      ((mapGetOpt SPECTRUM_PORT_MAP modeV = none ∧ st' = st ∧
        d' = dictErase dev "0x12beb" ∧ ho = none) ∨
       (∃ port, mapGetOpt SPECTRUM_PORT_MAP modeV = some port ∧
         emitHost st gcl port (dictErase dev "0x12beb") = .ok (st', d', ho))) := by
  rw [afterGroups] at H
  cases hm : dictGet dev "0x12beb" with
  | none => rw [hm] at H; cases H
  | some modeV =>
    rw [hm] at H
    simp only at H
    cases hp : mapGetOpt SPECTRUM_PORT_MAP modeV with
    | none =>
      rw [hp] at H
      simp only [Except.ok.injEq, Prod.mk.injEq] at H
      exact ⟨modeV, rfl, Or.inl ⟨hp, H.1.symm, H.2.1.symm, H.2.2.symm⟩⟩
    | some port =>
      rw [hp] at H
      simp only at H
      exact ⟨modeV, rfl, Or.inr ⟨port, hp, H⟩⟩

theorem emitHost_ok_inv {st : PState} {gcl : List String} {port : Nat} {dev : Device}
    {st' : PState} {d' : Device} {ho : Option Host}
    (H : emitHost st gcl port dev = .ok (st', d', ho)) :
    ∃ co data0 hostname netaddr refs,
      connOptsStep st.connOpts port (devPlatform dev) = .ok co ∧
      buildData dev = .ok (data0, d') ∧
      dictGet data0 "0x1006e" = some hostname ∧
      dictGet (dictErase data0 "0x1006e") "0x12d7f" = some netaddr ∧
      groupRefs st gcl = .ok refs ∧
      ho = some { name := hostname, hostname := netaddr,
                  port := finalPort port (finalPlatform port (devPlatform dev)),
                  platform := finalPlatform port (devPlatform dev),
                  groups := refs, connection_options := co,
                  data := dictErase (dictErase data0 "0x1006e") "0x12d7f" } ∧
      st' = { st with
              hosts := dictSet st.hosts hostname
                { name := hostname, hostname := netaddr,
                  port := finalPort port (finalPlatform port (devPlatform dev)),
                  platform := finalPlatform port (devPlatform dev),
                  groups := refs, connection_options := co,
                  data := dictErase (dictErase data0 "0x1006e") "0x12d7f" },
              connOpts := some co } := by
  rw [emitHost] at H
  cases hc : connOptsStep st.connOpts port (devPlatform dev) with
  | error e => rw [hc] at H; cases H
  | ok co =>
    rw [hc] at H
    simp only at H
    cases hb : buildData dev with
    | error e => rw [hb] at H; cases H
    | ok pr =>
      obtain ⟨data0, dev5⟩ := pr
      rw [hb] at H
      simp only at H
      cases hh : dictGet data0 "0x1006e" with
      | none => rw [hh] at H; cases H
      | some hostname =>
        rw [hh] at H
        simp only at H
        cases hn : dictGet (dictErase data0 "0x1006e") "0x12d7f" with
        | none => rw [hn] at H; cases H
        | some netaddr =>
          rw [hn] at H
          simp only at H
          cases hr : groupRefs st gcl with
          | error e => rw [hr] at H; cases H
          | ok refs =>
            rw [hr] at H
            simp only [Except.ok.injEq, Prod.mk.injEq] at H
            obtain ⟨hst, hdev, hho⟩ := H
            subst hdev
            refine ⟨co, data0, hostname, netaddr, refs, ?_, ?_, hh, hn, ?_, hho.symm, hst.symm⟩
            · rfl
            · rfl
            · rfl

theorem popIntD_ok_dev {d : Device} {k : String} {n : Int} {d2 : Device}
    (h : popIntD d k = .ok (n, d2)) : d2 = dictErase d k := by
  rw [popIntD] at h
  cases hg : dictGet d k with
  | none =>
    rw [hg] at h
    simp only [Except.ok.injEq, Prod.mk.injEq] at h
    exact h.2.symm
  | some v =>
    cases v with
    | none => rw [hg] at h; cases h
    | some s =>
      rw [hg] at h
      simp only at h
      cases hp : pyInt s with
      | none => rw [hp] at h; cases h
      | some n0 =>
        rw [hp] at h
        simp only [Except.ok.injEq, Prod.mk.injEq] at h
        exact h.2.symm

/-- The seven keys the loop pops from a record that reaches the data
payload: the two filter keys are popped earlier, these five here. -/
def erase5 (d : Device) : Device :=
  dictErase (dictErase (dictErase (dictErase (dictErase d "0x10000") "0x1000a")
    "0x11ee8") "0x23000e") "0x129e7"

theorem buildData_ok_inv {dev : Device} {data0 : List (String × DVal)} {dev' : Device}
    (h : buildData dev = .ok (data0, dev')) :
    dev' = erase5 dev ∧
    ∃ mt cond mclass dt topo,
      data0 = (erase5 dev).foldl (fun acc p => dictSet acc p.1 (valToD p.2))
        [("model_type", mt), ("condition", DVal.vint cond), ("model_class", DVal.vint mclass),
         ("device_type", dt), ("topology_string", topo)] := by
  rw [buildData] at h
  simp only [popStrD] at h
  cases hi1 : popIntD (dictErase dev "0x10000") "0x1000a" with
  | error e => rw [hi1] at h; cases h
  | ok pr1 =>
    obtain ⟨cond, dev2⟩ := pr1
    rw [hi1] at h
    simp only at h
    cases hi2 : popIntD dev2 "0x11ee8" with
    | error e => rw [hi2] at h; cases h
    | ok pr2 =>
      obtain ⟨mclass, dev3⟩ := pr2
      rw [hi2] at h
      simp only [Except.ok.injEq, Prod.mk.injEq] at h
      have h2 : dev2 = dictErase (dictErase dev "0x10000") "0x1000a" := popIntD_ok_dev hi1
      have h3 : dev3 = dictErase dev2 "0x11ee8" := popIntD_ok_dev hi2
      have hdev : dev' = erase5 dev := by
        rw [← h.2, h3, h2, erase5]
      constructor
      · exact hdev
      · exact ⟨_, cond, mclass, _, _, by rw [← h.1, h3, h2, erase5]⟩

theorem processData_ok_inv {input : List Device} {hosts : List (DVal × Host)}
    {groups : List (String × Group)} {devs : List Device}
    (h : processData input = .ok (hosts, groups, devs)) :
    ∃ st, processAll initState input = .ok (st, devs) ∧
      hosts = st.hosts ∧ groups = st.groups := by
  rw [processData] at h
  cases hp : processAll initState input with
  | error e => rw [hp] at h; cases h
  | ok pr =>
    obtain ⟨st, ds⟩ := pr
    rw [hp] at h
    simp only [Except.ok.injEq, Prod.mk.injEq] at h
    exact ⟨st, by rw [h.2.2], h.1.symm, h.2.1.symm⟩

/-! ### Group-map lemmas and the loop invariant -/

theorem addGroup_hosts (st : PState) (gc : String) : (addGroup st gc).hosts = st.hosts := by
  unfold addGroup; split <;> rfl

theorem addGroups_hosts (st : PState) (l : List String) : (addGroups st l).hosts = st.hosts := by
  induction l generalizing st with
  | nil => rfl
  | cons gc l ih =>
    show (addGroups (addGroup st gc) l).hosts = _
    rw [ih, addGroup_hosts]

theorem addGroup_mono {st : PState} {p : String × Group} (hp : p ∈ st.groups) (gc : String) :
    p ∈ (addGroup st gc).groups := by
  unfold addGroup; split
  · exact hp
  · exact List.mem_append_left _ hp

theorem addGroups_mono {st : PState} {p : String × Group} (hp : p ∈ st.groups)
    (l : List String) : p ∈ (addGroups st l).groups := by
  induction l generalizing st with
  | nil => exact hp
  | cons gc l ih =>
    show p ∈ (addGroups (addGroup st gc) l).groups
    exact ih (addGroup_mono hp gc)

theorem addGroup_mem_self (st : PState) (gc : String) :
    ∃ g, (gc, g) ∈ (addGroup st gc).groups := by
  unfold addGroup; split
  · rename_i hs
    obtain ⟨g, hg⟩ := Option.isSome_iff_exists.mp hs
    exact ⟨g, dictGet_mem hg⟩
  · exact ⟨⟨gc, st.nextUid⟩, List.mem_append_right _ (List.mem_singleton.mpr rfl)⟩

theorem mem_addGroups {tok : String} {l : List String} (h : tok ∈ l) (st : PState) :
    ∃ g, (tok, g) ∈ (addGroups st l).groups := by
  induction l generalizing st with
  | nil => cases h
  | cons gc l ih =>
    rw [List.mem_cons] at h
    show ∃ g, (tok, g) ∈ (addGroups (addGroup st gc) l).groups
    rcases h with h | h
    · subst h
      obtain ⟨g, hg⟩ := addGroup_mem_self st tok
      exact ⟨g, addGroups_mono hg l⟩
    · exact ih h (addGroup st gc)

/-- The loop invariant: every group entry is keyed by the name of the
Group it holds, group keys are unique, and every group referenced by an
already-emitted host is an entry of the group map. -/
def Inv (st : PState) : Prop :=
  (∀ p ∈ st.groups, (p.2 : Group).name = p.1) ∧
  ((st.groups.map Prod.fst).Nodup) ∧
  (∀ hv ∈ st.hosts, ∀ g ∈ (hv.2 : Host).groups, (g.name, g) ∈ st.groups)

theorem inv_initState : Inv initState := by
  refine ⟨?_, ?_, ?_⟩
  · intro p hp; cases hp
  · simp [initState]
  · intro hv hmem; cases hmem

theorem inv_addGroup {st : PState} (h : Inv st) (gc : String) : Inv (addGroup st gc) := by
  unfold addGroup
  split
  · exact h
  · rename_i hnone
    have hget : dictGet st.groups gc = none :=
      Option.not_isSome_iff_eq_none.mp hnone
    have hgc : ∀ p ∈ st.groups, p.1 ≠ gc := dictGet_eq_none hget
    refine ⟨?_, ?_, ?_⟩
    · intro p hp
      rw [List.mem_append] at hp
      rcases hp with hp | hp
      · exact h.1 p hp
      · rw [List.mem_singleton] at hp
        subst hp; rfl
    · rw [List.map_append, List.nodup_append]
      refine ⟨h.2.1, List.nodup_singleton _, ?_⟩
      intro a ha hb
      rw [List.map_singleton, List.mem_singleton] at hb
      subst hb
      obtain ⟨p, hp, hpa⟩ := List.mem_map.mp ha
      exact hgc p hp hpa
    · intro hv hmem g hg
      exact List.mem_append_left _ (h.2.2 hv hmem g hg)

theorem inv_addGroups {st : PState} (h : Inv st) (l : List String) : Inv (addGroups st l) := by
  induction l generalizing st with
  | nil => exact h
  | cons gc l ih =>
    show Inv (addGroups (addGroup st gc) l)
    exact ih (inv_addGroup h gc)

theorem groupRefs_mem {st : PState} (h1 : ∀ p ∈ st.groups, (p.2 : Group).name = p.1)
    {l : List String} {refs : List Group} (h : groupRefs st l = .ok refs) :
    ∀ g ∈ refs, (g.name, g) ∈ st.groups := by
  induction l generalizing refs with
  | nil =>
    rw [groupRefs] at h
    cases h
    intro g hg; cases hg
  | cons gc l ih =>
    rw [groupRefs] at h
    cases hd : dictGet st.groups gc with
    | none => rw [hd] at h; cases h
    | some g0 =>
      rw [hd] at h
      simp only at h
      cases hr : groupRefs st l with
      | error e => rw [hr] at h; cases h
      | ok l0 =>
        rw [hr] at h
        simp only [Except.ok.injEq] at h
        subst h
        intro g hg
        rw [List.mem_cons] at hg
        rcases hg with hg | hg
        · subst hg
          have hmem := dictGet_mem hd
          have hname : g.name = gc := h1 _ hmem
          rw [hname]
          exact hmem
        · exact ih hr g hg

theorem inv_emitHost {st : PState} {gcl : List String} {port : Nat} {dev : Device}
    {st' : PState} {d' : Device} {ho : Option Host} (hI : Inv st)
    (H : emitHost st gcl port dev = .ok (st', d', ho)) : Inv st' := by
  obtain ⟨co, data0, hostname, netaddr, refs, hc, hb, hh, hn, hr, hho, hst⟩ :=
    emitHost_ok_inv H
  subst hst
  refine ⟨hI.1, hI.2.1, ?_⟩
  intro hv hmem g hg
  rcases mem_dictSet hmem with he | he
  · subst he
    exact groupRefs_mem hI.1 hr g hg
  · exact hI.2.2 hv he g hg

theorem inv_processDevice {st : PState} {d : Device} {st' : PState} {d' : Device}
    {ho : Option Host} (hI : Inv st) (H : processDevice st d = .ok (st', d', ho)) :
    Inv st' := by
  obtain ⟨gcStr, hg, H⟩ := processDevice_ok_inv H
  obtain ⟨modeV, hm, hcase⟩ := afterGroups_ok_inv H
  have hI1 := inv_addGroups hI (gcTokens gcStr)
  rcases hcase with ⟨_, hst, _, _⟩ | ⟨port, hp, He⟩
  · rw [hst]; exact hI1
  · exact inv_emitHost hI1 He

theorem inv_processAll {ds : List Device} {st st' : PState} {ds' : List Device}
    (hI : Inv st) (H : processAll st ds = .ok (st', ds')) : Inv st' := by
  induction ds generalizing st ds' with
  | nil =>
    rw [processAll] at H
    simp only [Except.ok.injEq, Prod.mk.injEq] at H
    rw [← H.1]
    exact hI
  | cons d ds ih =>
    rw [processAll] at H
    cases hd : processDevice st d with
    | error e => rw [hd] at H; cases H
    | ok pr =>
      obtain ⟨st1, d1, ho⟩ := pr
      rw [hd] at H
      simp only at H
      cases hall : processAll st1 ds with
      | error e => rw [hall] at H; cases H
      | ok pr2 =>
        obtain ⟨st2, ds2⟩ := pr2
        rw [hall] at H
        simp only [Except.ok.injEq, Prod.mk.injEq] at H
        obtain ⟨h1, h2⟩ := H
        subst h1
        exact ih (inv_processDevice hI hd) hall

/-! ### Further shared lemmas -/

theorem processDevice_skip {st : PState} {d : Device} {gcStr modeV : Val}
    (h1 : dictGet d "0x12adb" = some gcStr)
    (h2 : dictGet d "0x12beb" = some modeV)
    (h3 : mapGetOpt SPECTRUM_PORT_MAP modeV = none) :
    processDevice st d = .ok (addGroups st (gcTokens gcStr),
      dictErase (dictErase d "0x12adb") "0x12beb", none) := by
  rw [processDevice, h1]
  simp only
  rw [afterGroups, dictGet_dictErase_ne _ (by decide), h2]
  simp only
  rw [h3]

/-- The relation between a device record as supplied and as the loop
leaves it: a skipped record loses the collection and mode keys, a record
that reaches the data payload additionally loses the five renamed keys. -/
def consumedErased (d d' : Device) : Prop :=
  d' = dictErase (dictErase d "0x12adb") "0x12beb" ∨
  d' = erase5 (dictErase (dictErase d "0x12adb") "0x12beb")

theorem processDevice_mutation {st : PState} {d : Device} {st' : PState} {d' : Device}
    {ho : Option Host} (H : processDevice st d = .ok (st', d', ho)) :
    consumedErased d d' := by
  obtain ⟨gcStr, hg, H⟩ := processDevice_ok_inv H
  obtain ⟨modeV, hm, hcase⟩ := afterGroups_ok_inv H
  rcases hcase with ⟨_, _, hd', _⟩ | ⟨port, hp, He⟩
  · exact Or.inl hd'
  · obtain ⟨co, data0, hostname, netaddr, refs, hc, hb, _, _, _, _, _⟩ :=
      emitHost_ok_inv He
    exact Or.inr (buildData_ok_inv hb).1

theorem processAll_mutation {ds : List Device} {st st' : PState} {ds' : List Device}
    (H : processAll st ds = .ok (st', ds')) :
    List.Forall₂ consumedErased ds ds' := by
  induction ds generalizing st ds' with
  | nil =>
    rw [processAll] at H
    simp only [Except.ok.injEq, Prod.mk.injEq] at H
    rw [← H.2]
    exact List.Forall₂.nil
  | cons d ds ih =>
    rw [processAll] at H
    cases hd : processDevice st d with
    | error e => rw [hd] at H; cases H
    | ok pr =>
      obtain ⟨st1, d1, ho⟩ := pr
      rw [hd] at H
      simp only at H
      cases hall : processAll st1 ds with
      | error e => rw [hall] at H; cases H
      | ok pr2 =>
        obtain ⟨st2, ds2⟩ := pr2
        rw [hall] at H
        simp only [Except.ok.injEq, Prod.mk.injEq] at H
        obtain ⟨h1, h2⟩ := H
        subst h1
        rw [← h2]
        exact List.Forall₂.cons (processDevice_mutation hd) (ih hall)

theorem dictGet_none_dictErase {κ α : Type} [DecidableEq κ] {m : List (κ × α)} {k : κ}
    (k' : κ) (h : dictGet m k = none) : dictGet (dictErase m k') k = none := by
  rw [dictGet_dictErase]
  split
  · rfl
  · exact h

theorem foldl_dictSet_none {l : List (String × Val)} {base : List (String × DVal)}
    {k : String} (hl : ∀ p ∈ l, p.1 ≠ k) (hb : dictGet base k = none) :
    dictGet (List.foldl (fun acc p => dictSet acc p.1 (valToD p.2)) base l) k = none := by
  induction l generalizing base with
  | nil => exact hb
  | cons p l ih =>
    show dictGet (List.foldl (fun acc p => dictSet acc p.1 (valToD p.2))
      (dictSet base p.1 (valToD p.2)) l) k = none
    refine ih (fun q hq => hl q (List.mem_cons_of_mem _ hq)) ?_
    rw [dictGet_dictSet, if_neg (hl p (List.mem_cons_self _ _))]
    exact hb

theorem platform_calc_juniper {mt dt : Option String} {s : String}
    (hmt : mapGetOpt NETMIKO_MODEL_TYPE_MAP mt = none)
    (hdt : dt = some s) (hj : containsSub s "Juniper" = true)
    (hc : containsSub s "Cisco" = false) :
    platform_calc mt dt = some "junos" := by
  subst hdt
  have hs : s ≠ "" := by
    intro he
    subst he
    exact absurd hj (by decide)
  by_cases h2 : "JuniperRT" = s
  · subst h2
    rw [platform_calc, hmt]
    decide
  · have h1 : ¬ ("CiscoRT" = s) := by
      intro he
      subst he
      exact absurd hc (by decide)
    have hd : mapGetOpt NETMIKO_DEVICE_TYPE_MAP (some s) = none := by
      simp [mapGetOpt, dictGet, NETMIKO_DEVICE_TYPE_MAP, h1, h2]
    rw [platform_calc, hmt]
    simp only
    rw [hd]
    simp [pyTruthy, hs, hj, hc, bne_iff_ne]

/-! ### Concrete records used by the claims -/

/-- The specification example record, in the numeric attribute-code
convention of the source. -/
def c1rec : Device :=
  [("0x1006e", some "sw1"), ("0x12d7f", some "10.0.0.1"), ("0x12beb", some "3"),
   ("0x10000", some "Rtr_Cisco"), ("0x12adb", some "core:edge")]

/-- A record whose collection and mode attributes are present but null. -/
def c2cex : Device := [("0x12adb", none), ("0x12beb", none)]

/-- A record from which the collection-membership attribute is absent. -/
def c3cex : Device := [("0x12beb", some "3")]

/-- A record with an empty collection-membership value. -/
def c3wit : Device := [("0x12adb", some ""), ("0x12beb", some "3")]

/-! ### Claim theorems -/

/-- C1: the specification example record (model name sw1, network
address 10.0.0.1, communication mode 3, model type Rtr_Cisco,
collections core:edge) is claimed to yield host sw1 with port 23, the
telnet-specific Cisco identifier, and new groups core and edge.  The
code instead raises UnboundLocalError: the telnet-only Cisco branch
(port 23 and platform ios, exactly this record) calls update on the
local variable connection_options before any assignment to it. -/
theorem c1_example_raises_unbound_local :
    processData [c1rec] = .error (.unboundLocal "connection_options") := rfl

/-- C2 counterexample: the translator is not pure with respect to its
input: it pops consumed attribute keys out of the supplied records, so
after a successful run the record list differs from the input. -/
theorem c2_counterexample :
    processData [c2cex] = .ok ([], [], [([] : Device)]) ∧ ([([] : Device)] ≠ [c2cex]) :=
  ⟨rfl, by decide⟩

/-- C2 (amended): on every successful translation each input record is
mutated by exactly the destructive pops: a skipped record loses the
collection and communication-mode keys, a record that reaches the data
payload additionally loses the model-type, condition, model-class,
device-type and topology keys; beyond this mutation the only effect is
the construction of the returned host and group collections. -/
theorem c2_amended_mutates_consumed_keys :
    ∀ (input : List Device) (hosts : List (DVal × Host)) (groups : List (String × Group))
      (devs : List Device),
      processData input = .ok (hosts, groups, devs) →
      List.Forall₂ consumedErased input devs := by
  intro input hosts groups devs h
  obtain ⟨st, hall, _, _⟩ := processData_ok_inv h
  exact processAll_mutation hall

/-- Witness for C2 (amended) at a concrete input. -/
theorem c2_amended_witness : List.Forall₂ consumedErased [c2cex] [([] : Device)] :=
  c2_amended_mutates_consumed_keys [c2cex] [] [] [([] : Device)] rfl

/-- C3 counterexample: a record from which the collection-membership
attribute is entirely absent is not given an empty group list; the
unguarded pop raises KeyError. -/
theorem c3_counterexample :
    processData [c3cex] = .error (.keyError "0x12adb") := rfl

/-- C3 (amended): when the collection-membership attribute is present
with an empty or null value, the candidate group list is empty, no group
is created, and processing of the record continues with the
communication-mode step; when the attribute is absent the translator
raises KeyError instead (see the counterexample). -/
theorem c3_amended_falsy_collections :
    ∀ (st : PState) (d : Device) (v : Val),
      dictGet d "0x12adb" = some v → pyTruthy v = false →
      gcTokens v = [] ∧ addGroups st (gcTokens v) = st ∧
      processDevice st d = afterGroups st [] (dictErase d "0x12adb") := by
  intro st d v h1 h2
  have ht : gcTokens v = [] := by simp [gcTokens, h2]
  refine ⟨ht, by rw [ht]; rfl, ?_⟩
  rw [processDevice, h1]
  simp only
  rw [ht]
  rfl

/-- Witness for C3 (amended) at a concrete input. -/
theorem c3_amended_witness :
    gcTokens (some "") = [] ∧ addGroups initState (gcTokens (some "")) = initState ∧
    processDevice initState c3wit = afterGroups initState [] (dictErase c3wit "0x12adb") :=
  c3_amended_falsy_collections initState c3wit (some "") rfl rfl

/-- A record that emits host sw1 in group core via ssh. -/
def c4rec : Device :=
  [("0x12adb", some "core"), ("0x12beb", some "32"),
   ("0x1006e", some "sw1"), ("0x12d7f", some "10.0.0.1")]

/-- The host the loop builds for c4rec. -/
def c4host : Host :=
  { name := .vstr "sw1", hostname := .vstr "10.0.0.1", port := 22,
    platform := some "generic", groups := [⟨"core", 0⟩],
    connection_options := [],
    data := [("model_type", .vstr ""), ("condition", .vint 0), ("model_class", .vint 0),
             ("device_type", .vstr ""), ("topology_string", .vstr "")] }

/-- The loop state after processing c4rec from the initial state. -/
def c4stateOut : PState :=
  { hosts := [(.vstr "sw1", c4host)], groups := [("core", ⟨"core", 0⟩)],
    nextUid := 1, connOpts := some [] }

/-- What remains of c4rec after its consumed keys are popped. -/
def c4leftover : Device := [("0x1006e", some "sw1"), ("0x12d7f", some "10.0.0.1")]

/-- C4: for every input device list, on success every group referenced
by every emitted host is an entry of the returned group mapping; the
reference is resolved by lookup in the group mapping being built, so the
group exists in it before the host is emitted. -/
theorem c4_host_groups_covered :
    ∀ (input : List Device) (hosts : List (DVal × Host)) (groups : List (String × Group))
      (devs : List Device),
      processData input = .ok (hosts, groups, devs) →
      ∀ hv ∈ hosts, ∀ g ∈ (hv.2 : Host).groups, (g.name, g) ∈ groups := by
  intro input hosts groups devs h hv hmem g hg
  obtain ⟨st, hall, hh, hgr⟩ := processData_ok_inv h
  have hI := inv_processAll inv_initState hall
  rw [hgr]
  exact hI.2.2 hv (hh ▸ hmem) g hg

/-- Witness for C4 at a concrete input. -/
theorem c4_witness : ("core", (⟨"core", 0⟩ : Group)) ∈ [("core", (⟨"core", 0⟩ : Group))] :=
  c4_host_groups_covered [c4rec] [(.vstr "sw1", c4host)] [("core", ⟨"core", 0⟩)]
    [c4leftover] rfl (.vstr "sw1", c4host) (List.mem_singleton.mpr rfl)
    ⟨"core", 0⟩ (List.mem_singleton.mpr rfl)

/-- C5: for every emitted host, communication-mode code 3 gives port 23
and codes 32 and 7 give port 22, except that a host whose derived
platform is junos always gets port 830. -/
theorem c5_port_rules :
    ∀ (st : PState) (d : Device) (st' : PState) (d' : Device) (h : Host) (v : Val),
      processDevice st d = .ok (st', d', some h) →
      dictGet d "0x12beb" = some v →
      ((h.platform = some "junos" → h.port = 830) ∧
       (h.platform ≠ some "junos" →
         ((v = some "3" → h.port = 23) ∧
          ((v = some "32" ∨ v = some "7") → h.port = 22)))) := by
  intro st d st' d' h v H hv
  obtain ⟨gcStr, hg, H⟩ := processDevice_ok_inv H
  obtain ⟨modeV, hm, hcase⟩ := afterGroups_ok_inv H
  rw [dictGet_dictErase_ne _ (by decide), hv] at hm
  injection hm with hm
  subst hm
  rcases hcase with ⟨_, _, _, hho⟩ | ⟨port, hp, He⟩
  · cases hho
  · obtain ⟨co, data0, hostname, netaddr, refs, hc, hb, hh2, hn, hr, hho, hst⟩ :=
      emitHost_ok_inv He
    injection hho with hho
    subst hho
    dsimp only
    constructor
    · intro hj
      rw [finalPort, hj]
      rfl
    · intro hne
      have hbeq : (finalPlatform port (devPlatform (dictErase (dictErase d "0x12adb")
          "0x12beb")) == some "junos") = false := by
        rw [beq_eq_false_iff_ne]
        exact hne
      rw [finalPort, hbeq]
      simp only [Bool.false_eq_true, if_false]
      constructor
      · intro h3
        subst h3
        have : (23 : Nat) = port := by
          have := hp
          rw [show mapGetOpt SPECTRUM_PORT_MAP (some "3") = some 23 from rfl] at this
          injection this
        rw [← this]
      · intro h22
        rcases h22 with h22 | h22 <;> subst h22
        · have : (22 : Nat) = port := by
            have := hp
            rw [show mapGetOpt SPECTRUM_PORT_MAP (some "32") = some 22 from rfl] at this
            injection this
          rw [← this]
        · have : (22 : Nat) = port := by
            have := hp
            rw [show mapGetOpt SPECTRUM_PORT_MAP (some "7") = some 22 from rfl] at this
            injection this
          rw [← this]

/-- Witness for C5 at a concrete emitted host. -/
theorem c5_witness :
    (c4host.platform = some "junos" → c4host.port = 830) ∧
    (c4host.platform ≠ some "junos" →
      (((some "32" : Val) = some "3" → c4host.port = 23) ∧
       (((some "32" : Val) = some "32" ∨ (some "32" : Val) = some "7") → c4host.port = 22))) :=
  c5_port_rules initState c4rec c4stateOut c4leftover c4host (some "32") rfl rfl

/-- A record whose device type contains both Cisco and Juniper and whose
model type is absent (hence unmapped). -/
def c6cex : Device :=
  [("0x12adb", some ""), ("0x12beb", some "32"), ("0x23000e", some "CiscoJuniper"),
   ("0x1006e", some "r1"), ("0x12d7f", some "10.0.0.2")]

/-- The host the loop builds for c6cex. -/
def c6cexHost : Host :=
  { name := .vstr "r1", hostname := .vstr "10.0.0.2", port := 22, platform := some "ios",
    groups := [], connection_options := [],
    data := [("model_type", .vstr ""), ("condition", .vint 0), ("model_class", .vint 0),
             ("device_type", .vstr "CiscoJuniper"), ("topology_string", .vstr "")] }

/-- C6 counterexample: a device type containing Juniper does not always
give platform junos: the Cisco substring is checked first, so the
unmapped device type CiscoJuniper yields platform ios and port 22
instead of junos and 830. -/
theorem c6_counterexample :
    containsSub "CiscoJuniper" "Juniper" = true ∧
    mapGetOpt NETMIKO_MODEL_TYPE_MAP ((dictGet c6cex "0x10000").join) = none ∧
    processData [c6cex] = .ok ([(.vstr "r1", c6cexHost)], [],
      [[("0x1006e", some "r1"), ("0x12d7f", some "10.0.0.2")]]) ∧
    c6cexHost.platform = some "ios" ∧ c6cexHost.port = 22 :=
  ⟨rfl, rfl, rfl, rfl, rfl⟩

/-- C6 (amended): for every emitted host whose record has an unmapped
model type and a device type that contains Juniper and does not contain
Cisco, the derived platform is junos and the port is 830. -/
theorem c6_amended_juniper :
    ∀ (st : PState) (d : Device) (st' : PState) (d' : Device) (h : Host) (s : String),
      processDevice st d = .ok (st', d', some h) →
      mapGetOpt NETMIKO_MODEL_TYPE_MAP ((dictGet d "0x10000").join) = none →
      (dictGet d "0x23000e").join = some s →
      containsSub s "Juniper" = true →
      containsSub s "Cisco" = false →
      h.platform = some "junos" ∧ h.port = 830 := by
  intro st d st' d' h s H hmt hdt hj hc
  obtain ⟨gcStr, hg, H⟩ := processDevice_ok_inv H
  obtain ⟨modeV, hm, hcase⟩ := afterGroups_ok_inv H
  rcases hcase with ⟨_, _, _, hho⟩ | ⟨port, hp, He⟩
  · cases hho
  · obtain ⟨co, data0, hostname, netaddr, refs, hc2, hb, hh2, hn, hr, hho, hst⟩ :=
      emitHost_ok_inv He
    injection hho with hho
    subst hho
    dsimp only
    have e10 : dictGet (dictErase (dictErase d "0x12adb") "0x12beb") "0x10000" =
        dictGet d "0x10000" := by
      rw [dictGet_dictErase_ne _ (by decide), dictGet_dictErase_ne _ (by decide)]
    have e23 : dictGet (dictErase (dictErase d "0x12adb") "0x12beb") "0x23000e" =
        dictGet d "0x23000e" := by
      rw [dictGet_dictErase_ne _ (by decide), dictGet_dictErase_ne _ (by decide)]
    have hplat : devPlatform (dictErase (dictErase d "0x12adb") "0x12beb") = some "junos" := by
      rw [devPlatform, e10, e23, hdt]
      exact platform_calc_juniper hmt rfl hj hc
    have hfp : finalPlatform port
        (devPlatform (dictErase (dictErase d "0x12adb") "0x12beb")) = some "junos" := by
      rw [hplat, finalPlatform]
      simp [pyTruthy]
    refine ⟨hfp, ?_⟩
    rw [hfp, finalPort]
    rfl

/-- A Juniper record: unmapped model type, device type JuniperMX. -/
def c6wit : Device :=
  [("0x12adb", some ""), ("0x12beb", some "32"), ("0x23000e", some "JuniperMX"),
   ("0x1006e", some "j1"), ("0x12d7f", some "10.0.0.9")]

/-- The host the loop builds for c6wit. -/
def c6witHost : Host :=
  { name := .vstr "j1", hostname := .vstr "10.0.0.9", port := 830, platform := some "junos",
    groups := [], connection_options := [],
    data := [("model_type", .vstr ""), ("condition", .vint 0), ("model_class", .vint 0),
             ("device_type", .vstr "JuniperMX"), ("topology_string", .vstr "")] }

/-- The loop state after processing c6wit from the initial state. -/
def c6witState : PState :=
  { hosts := [(.vstr "j1", c6witHost)], groups := [], nextUid := 0, connOpts := some [] }

/-- Witness for C6 (amended) at a concrete input. -/
theorem c6_amended_witness : c6witHost.platform = some "junos" ∧ c6witHost.port = 830 :=
  c6_amended_juniper initState c6wit c6witState
    [("0x1006e", some "j1"), ("0x12d7f", some "10.0.0.9")] c6witHost "JuniperMX"
    rfl rfl rfl rfl rfl

/-- A second record sharing the collection token core with c4rec. -/
def c7rec2 : Device :=
  [("0x12adb", some "core:dmz"), ("0x12beb", some "7"),
   ("0x1006e", some "sw2"), ("0x12d7f", some "10.0.0.3")]

/-- The host the loop builds for c7rec2 after c4rec. -/
def c7host2 : Host :=
  { name := .vstr "sw2", hostname := .vstr "10.0.0.3", port := 22, platform := some "generic",
    groups := [⟨"core", 0⟩, ⟨"dmz", 1⟩], connection_options := [],
    data := [("model_type", .vstr ""), ("condition", .vint 0), ("model_class", .vint 0),
             ("device_type", .vstr ""), ("topology_string", .vstr "")] }

/-- The group mapping produced for the input with c4rec and c7rec2. -/
def c7groupsOut : List (String × Group) := [("core", ⟨"core", 0⟩), ("dmz", ⟨"dmz", 1⟩)]

/-- C7: group creation is idempotent: on success the returned group
mapping has pairwise-distinct keys, and any two group references with
the same name held by emitted hosts are the same Group entity (equal
name and creation index), so two devices sharing a collection token
reference one single group. -/
theorem c7_group_identity :
    ∀ (input : List Device) (hosts : List (DVal × Host)) (groups : List (String × Group))
      (devs : List Device),
      processData input = .ok (hosts, groups, devs) →
      ((groups.map Prod.fst).Nodup ∧
       ∀ hv1 ∈ hosts, ∀ hv2 ∈ hosts,
         ∀ g1 ∈ (hv1.2 : Host).groups, ∀ g2 ∈ (hv2.2 : Host).groups,
           g1.name = g2.name → g1 = g2) := by
  intro input hosts groups devs h
  obtain ⟨st, hall, hh, hgr⟩ := processData_ok_inv h
  have hI := inv_processAll inv_initState hall
  subst hh
  subst hgr
  refine ⟨hI.2.1, ?_⟩
  intro hv1 hm1 hv2 hm2 g1 hg1 g2 hg2 hname
  have e1 : (g1.name, g1) ∈ st.groups := hI.2.2 hv1 hm1 g1 hg1
  have e2 : (g2.name, g2) ∈ st.groups := hI.2.2 hv2 hm2 g2 hg2
  rw [← hname] at e2
  exact nodupKeys_mem_eq hI.2.1 e1 e2

/-- Witness for C7 at a concrete two-device input sharing token core. -/
theorem c7_witness : (c7groupsOut.map Prod.fst).Nodup :=
  (c7_group_identity [c4rec, c7rec2]
    [(.vstr "sw1", c4host), (.vstr "sw2", c7host2)] c7groupsOut
    [c4leftover, [("0x1006e", some "sw2"), ("0x12d7f", some "10.0.0.3")]] rfl).1

/-- A record with an unsupported communication-mode code and no
collection-membership attribute. -/
def c8cex : Device := [("0x12beb", some "99")]

/-- C8 counterexample: a record whose communication-mode code is
unsupported is not always silently excluded: when the record also lacks
the collection-membership attribute, the unguarded pop of that attribute
raises KeyError before the mode is even inspected, so the translation
errors instead of skipping the record. -/
theorem c8_counterexample :
    processData [c8cex] = .error (.keyError "0x12adb") := rfl

/-- C8 (amended): for every record that carries the
collection-membership attribute and whose communication-mode code maps
to no supported port, no host is emitted for the record and processing
returns normally (the record is filtered, not an error); a record
additionally missing the collection-membership key instead raises a
KeyError at the earlier pop, whatever its mode code (see the
counterexample). -/
theorem c8_unsupported_mode_skipped :
    ∀ (st : PState) (d : Device) (gcStr modeV : Val),
      dictGet d "0x12adb" = some gcStr →
      dictGet d "0x12beb" = some modeV →
      mapGetOpt SPECTRUM_PORT_MAP modeV = none →
      processDevice st d = .ok (addGroups st (gcTokens gcStr),
        dictErase (dictErase d "0x12adb") "0x12beb", none) :=
  fun _ _ _ _ h1 h2 h3 => processDevice_skip h1 h2 h3

/-- Witness for C8 at a concrete input with mode code 99. -/
theorem c8_witness :
    processDevice initState [("0x12adb", some ""), ("0x12beb", some "99")] =
      .ok (initState, [], none) :=
  c8_unsupported_mode_skipped initState [("0x12adb", some ""), ("0x12beb", some "99")]
    (some "") (some "99") rfl rfl rfl

/-- C9: a record that passes the communication-mode filter but lacks the
hostname attribute or the network-address attribute makes the translator
raise an error, and no host is emitted for it. -/
theorem c9_missing_required_attrs_error :
    ∀ (st : PState) (d : Device) (gcStr modeV : Val) (port : Nat),
      dictGet d "0x12adb" = some gcStr →
      dictGet d "0x12beb" = some modeV →
      mapGetOpt SPECTRUM_PORT_MAP modeV = some port →
      (dictGet d "0x1006e" = none ∨ dictGet d "0x12d7f" = none) →
      ∃ e, processDevice st d = .error e := by
  intro st d gcStr modeV port h1 h2 h3 h4
  rw [processDevice, h1]
  simp only
  rw [afterGroups, dictGet_dictErase_ne _ (by decide), h2]
  simp only
  rw [h3]
  simp only
  rw [emitHost]
  cases hc : connOptsStep (addGroups st (gcTokens gcStr)).connOpts port
      (devPlatform (dictErase (dictErase d "0x12adb") "0x12beb")) with
  | error e => exact ⟨e, rfl⟩
  | ok co =>
    simp only
    cases hb : buildData (dictErase (dictErase d "0x12adb") "0x12beb") with
    | error e => exact ⟨e, rfl⟩
    | ok pr =>
      obtain ⟨data0, dev5⟩ := pr
      simp only
      obtain ⟨hdev5, hex⟩ := buildData_ok_inv hb
      obtain ⟨mt, cond, mclass, dt, topo, hdata⟩ := hex
      have keyNone : ∀ k : String, k ≠ "0x12adb" → k ≠ "0x12beb" → dictGet d k = none →
          k ≠ "model_type" → k ≠ "condition" → k ≠ "model_class" → k ≠ "device_type" →
          k ≠ "topology_string" → dictGet data0 k = none := by
        intro k hk1 hk2 hk h5a h5b h5c h5d h5e
        rw [hdata]
        have hdv : dictGet (dictErase (dictErase d "0x12adb") "0x12beb") k = none := by
          rw [dictGet_dictErase_ne _ hk2, dictGet_dictErase_ne _ hk1]
          exact hk
        have h5 : dictGet (erase5 (dictErase (dictErase d "0x12adb") "0x12beb")) k = none := by
          rw [erase5]
          exact dictGet_none_dictErase _ (dictGet_none_dictErase _ (dictGet_none_dictErase _
            (dictGet_none_dictErase _ (dictGet_none_dictErase _ hdv))))
        refine foldl_dictSet_none (dictGet_eq_none h5) ?_
        rw [dictGet, if_neg (fun he => h5a he.symm), dictGet, if_neg (fun he => h5b he.symm),
            dictGet, if_neg (fun he => h5c he.symm), dictGet, if_neg (fun he => h5d he.symm),
            dictGet, if_neg (fun he => h5e he.symm), dictGet]
      rcases h4 with h4 | h4
      · have hk : dictGet data0 "0x1006e" = none :=
          keyNone _ (by decide) (by decide) h4 (by decide) (by decide) (by decide)
            (by decide) (by decide)
        rw [hk]
        exact ⟨.keyError "0x1006e", rfl⟩
      · cases hh : dictGet data0 "0x1006e" with
        | none => exact ⟨.keyError "0x1006e", rfl⟩
        | some hostname =>
          simp only
          have hk : dictGet data0 "0x12d7f" = none :=
            keyNone _ (by decide) (by decide) h4 (by decide) (by decide) (by decide)
              (by decide) (by decide)
          have hk2 : dictGet (dictErase data0 "0x1006e") "0x12d7f" = none :=
            dictGet_none_dictErase _ hk
          rw [hk2]
          exact ⟨.keyError "0x12d7f", rfl⟩

/-- Witness for C9 at a concrete input lacking the hostname attribute. -/
theorem c9_witness :
    ∃ e, processDevice initState [("0x12adb", some ""), ("0x12beb", some "32")] = .error e :=
  c9_missing_required_attrs_error initState [("0x12adb", some ""), ("0x12beb", some "32")]
    (some "") (some "32") 22 rfl rfl rfl (Or.inl rfl)

/-- C10: a record skipped for an unsupported communication mode still
causes every group named in its collection-membership attribute to be
present in the group mapping, so the output can contain groups no
emitted host references. -/
theorem c10_skipped_record_creates_groups :
    ∀ (st : PState) (d : Device) (gcStr modeV : Val),
      dictGet d "0x12adb" = some gcStr →
      dictGet d "0x12beb" = some modeV →
      mapGetOpt SPECTRUM_PORT_MAP modeV = none →
      (processDevice st d = .ok (addGroups st (gcTokens gcStr),
         dictErase (dictErase d "0x12adb") "0x12beb", none) ∧
       ∀ tok ∈ gcTokens gcStr, ∃ g, (tok, g) ∈ (addGroups st (gcTokens gcStr)).groups) :=
  fun st _ _ _ h1 h2 h3 =>
    ⟨processDevice_skip h1 h2 h3, fun _ htok => mem_addGroups htok st⟩

/-- Witness for C10 at a concrete input: mode 99 is unsupported, yet the
group core is created. -/
theorem c10_witness :
    (processDevice initState [("0x12adb", some "core"), ("0x12beb", some "99")] =
       .ok (addGroups initState (gcTokens (some "core")),
         dictErase (dictErase [("0x12adb", some "core"), ("0x12beb", some "99")]
           "0x12adb") "0x12beb", none) ∧
     ∀ tok ∈ gcTokens (some "core"), ∃ g,
       (tok, g) ∈ (addGroups initState (gcTokens (some "core"))).groups) :=
  c10_skipped_record_creates_groups initState
    [("0x12adb", some "core"), ("0x12beb", some "99")] (some "core") (some "99") rfl rfl rfl

end Spectrum
